import Mathlib

set_option linter.unusedVariables false

/-
Shallow embedding of the multi-tenant credential and secret subsystem of the
repository.  Source files embedded below:
  src/shared/secret-store.ts   (SecretStore, maskKey; the same snapshot also
                                carries FileUtils from src/shared/file-utils.ts)
  src/shared/error-handler.ts  (AppError taxonomy, ErrorHandler.getStatusCode)
  src/api/routes/webhooks.ts   (verifyGitHubSignature, POST /github handler)
  src/api/services/github.service.ts (getInstallationClient,
                                handleInstallationCreated/Deleted)
  src/api/services/config.service.ts (getInstallationToken)

Modeling conventions: Node Buffers are lists of bytes (Fin 256); strings keep
their JS value; the ambient nondeterminism of the source (random nonce from
randomBytes, wall-clock timestamps, network responses) is passed in as explicit
parameters; fallible code returns Except.  AES-256-GCM is idealized: the
cipher stream is a byte-wise xor with a key/nonce-determined keystream
(decryption is the same xor, as in CTR mode), and the 128-bit authentication
tag is modeled as an ideal MAC, collision-free in (key, nonce, ciphertext).
-/

abbrev Byte := Fin 256

abbrev Bytes := List Byte

/-- One keystream byte of the idealized AES-CTR stream at offset i. -/
def keystreamByte (key iv i : Nat) : Nat := (key + iv + i) % 256

theorem xor_lt_256 (a b : Nat) (ha : a < 256) (hb : b < 256) : a ^^^ b < 256 := by
  have h := Nat.xor_lt_two_pow (n := 8) (x := a) (y := b) (by norm_num [ha]) (by norm_num [hb])
  norm_num at h
  exact h

/-- Xor a byte with (the low 8 bits of) a keystream value. -/
def xorByte (b : Byte) (k : Nat) : Byte :=
  ⟨b.val ^^^ (k % 256), xor_lt_256 _ _ b.isLt (Nat.mod_lt _ (by norm_num))⟩

theorem xorByte_xorByte (b : Byte) (k : Nat) : xorByte (xorByte b k) k = b := by
  apply Fin.ext
  exact Nat.xor_cancel_right _ _

/-- Cipher core of SecretStore.encrypt / SecretStore.decrypt: cipher.update
    xors the data with the AES-CTR keystream (idealized). -/
def ctrXor (key iv : Nat) : Nat → Bytes → Bytes
  | _, [] => []
  | i, b :: t => xorByte b (keystreamByte key iv i) :: ctrXor key iv (i + 1) t

theorem ctrXor_ctrXor (key iv : Nat) :
    ∀ (i : Nat) (p : Bytes), ctrXor key iv i (ctrXor key iv i p) = p
  | _, [] => rfl
  | i, b :: t => by
      simp [ctrXor, xorByte_xorByte, ctrXor_ctrXor key iv (i + 1) t]

theorem ctrXor_length (key iv : Nat) :
    ∀ (i : Nat) (p : Bytes), (ctrXor key iv i p).length = p.length
  | _, [] => rfl
  | i, b :: t => by
      simp [ctrXor, ctrXor_length key iv (i + 1) t]

/-- Injective encoding of a byte list into Nat (used by the ideal MAC). -/
def encodeBytes : Bytes → Nat
  | [] => 0
  | b :: t => Nat.pair b.val (encodeBytes t) + 1

theorem encodeBytes_injective : ∀ {p q : Bytes}, encodeBytes p = encodeBytes q → p = q
  | [], [], _ => rfl
  | [], _ :: _, h => by simp [encodeBytes] at h
  | _ :: _, [], h => by simp [encodeBytes] at h
  | b :: t, c :: u, h => by
      simp [encodeBytes, Nat.pair_eq_pair] at h
      obtain ⟨h1, h2⟩ := h
      have := encodeBytes_injective h2
      simp [Fin.ext h1, this]

/-- Model of the GCM authentication tag (cipher.getAuthTag): an ideal MAC,
    collision-free in (key, nonce, ciphertext). -/
def authTag (key iv : Nat) (ct : Bytes) : Nat :=
  Nat.pair key (Nat.pair iv (encodeBytes ct))

theorem authTag_inj {key iv iv' : Nat} {ct ct' : Bytes}
    (h : authTag key iv ct = authTag key iv' ct') : iv = iv' ∧ ct = ct' := by
  unfold authTag at h
  obtain ⟨-, h2⟩ := Nat.pair_eq_pair.mp h
  obtain ⟨h3, h4⟩ := Nat.pair_eq_pair.mp h2
  exact ⟨h3, encodeBytes_injective h4⟩

/-- The ALG constant of src/shared/secret-store.ts. -/
def ALG : String := "aes-256-gcm"

/-- EncRecord of src/shared/secret-store.ts.  The stored blob
    enc = base64(iv|cipher|tag) is modeled structurally as its three
    components; base64 and the fixed-offset framing (12-byte iv prefix,
    16-byte tag suffix) are injective, and decrypt splits the blob back at
    exactly those offsets, so the structural view is faithful. -/
structure EncRecord where
  iv : Nat
  ct : Bytes
  tag : Nat
  algo : String
  ver : Nat
  updatedAt : String
deriving DecidableEq

/-- Errors SecretStore.decrypt can raise: the explicit ValidationError for an
    unknown algorithm, and the authentication failure thrown by
    decipher.final() when the GCM tag does not verify (the spec calls this
    condition IntegrityError). -/
inductive SecretErr where
  | validationError
  | integrityError
deriving DecidableEq

/-- SecretStore.encrypt.  key is the master key (getMasterKey), iv the random
    96-bit nonce drawn by randomBytes(12), now the updatedAt timestamp. -/
def SecretStore.encrypt (key iv : Nat) (now : String) (plain : Bytes) : EncRecord :=
  let cipherText := ctrXor key iv 0 plain
  { iv := iv, ct := cipherText, tag := authTag key iv cipherText,
    algo := ALG, ver := 1, updatedAt := now }

/-- SecretStore.decrypt: rejects an unknown algorithm with ValidationError,
    then verifies the authentication tag and decrypts. -/
def SecretStore.decrypt (key : Nat) (r : EncRecord) : Except SecretErr Bytes :=
  if r.algo ≠ ALG then .error .validationError
  else if r.tag = authTag key r.iv r.ct then .ok (ctrXor key r.iv 0 r.ct)
  else .error .integrityError

/-- JS object lookup obj[k] on a string-keyed record. -/
def lookupKey {α : Type} : List (String × α) → String → Option α
  | [], _ => none
  | (k0, v) :: t, k => if k0 = k then some v else lookupKey t k

/-- JS object assignment obj[k] = v: replaces the entry in place if the key
    exists, otherwise appends. -/
def setKey {α : Type} : List (String × α) → String → α → List (String × α)
  | [], k, v => [(k, v)]
  | (k0, v0) :: t, k, v => if k0 = k then (k, v) :: t else (k0, v0) :: setKey t k v

theorem lookupKey_setKey_self {α : Type} (m : List (String × α)) (k : String) (v : α) :
    lookupKey (setKey m k v) k = some v := by
  induction m with
  | nil => simp [setKey, lookupKey]
  | cons h t ih =>
      obtain ⟨k0, v0⟩ := h
      by_cases hk : k0 = k
      · simp [setKey, hk, lookupKey]
      · simp [setKey, hk, lookupKey, ih]

theorem lookupKey_setKey_ne {α : Type} (m : List (String × α)) {k k' : String} (v : α)
    (h : k' ≠ k) : lookupKey (setKey m k v) k' = lookupKey m k' := by
  have h0 : ¬(k = k') := fun hh => h hh.symm
  induction m with
  | nil => simp [setKey, lookupKey, h0]
  | cons p t ih =>
      obtain ⟨k0, v0⟩ := p
      by_cases hk : k0 = k
      · subst hk
        simp [setKey, lookupKey, h0]
      · simp [setKey, hk, lookupKey, ih]

/-- GuildSecretsFile of src/shared/secret-store.ts. -/
structure GuildSecretsFile where
  guildId : String
  secrets : List (String × EncRecord)
  updatedAt : String
deriving DecidableEq

/-- Contents of the data/guilds directory: one JSON file per guild id. -/
abbrev SecretDir := List (String × GuildSecretsFile)

/-- SecretStore.readFile: parse data/guilds/(guildId).json, null on ENOENT. -/
def SecretStore.readFile (dir : SecretDir) (guildId : String) : Option GuildSecretsFile :=
  lookupKey dir guildId

/-- SecretStore.writeFile: serialize and replace data/guilds/(guildId).json
    (the temp-file-and-rename mechanics are modeled separately as an
    operation trace for the atomicity claim). -/
def SecretStore.writeFile (dir : SecretDir) (guildId : String) (data : GuildSecretsFile) : SecretDir :=
  setKey dir guildId data

/-- SecretStore.put: encrypt, merge into the tenant record set, write back. -/
def SecretStore.put (key iv : Nat) (now : String) (dir : SecretDir)
    (guildId k : String) (plain : Bytes) : SecretDir :=
  let r := SecretStore.encrypt key iv now plain
  let current := (SecretStore.readFile dir guildId).getD
    { guildId := guildId, secrets := [], updatedAt := now }
  SecretStore.writeFile dir guildId
    { current with secrets := setKey current.secrets k r, updatedAt := now }

/-- SecretStore.get: read the tenant file, look up the record, decrypt. -/
def SecretStore.get (key : Nat) (dir : SecretDir) (guildId k : String) :
    Except SecretErr (Option Bytes) :=
  match SecretStore.readFile dir guildId with
  | none => .ok none
  | some current =>
    match lookupKey current.secrets k with
    | none => .ok none
    | some r => (SecretStore.decrypt key r).map some

/-- C1: for every tenant id g, secret name k and plaintext v, put(g, k, v)
    followed by get(g, k) with no intervening write and the same master key
    returns exactly v.  key is the master key, iv the nonce drawn by encrypt,
    now the timestamp; the plaintext string is modeled as its UTF-8 bytes. -/
theorem secretStore_put_get_roundtrip (key iv : Nat) (now : String)
    (dir : SecretDir) (g k : String) (v : Bytes) :
    SecretStore.get key (SecretStore.put key iv now dir g k v) g k =
      .ok (some v) := by
  simp [SecretStore.get, SecretStore.put, SecretStore.readFile, SecretStore.writeFile,
    lookupKey_setKey_self, SecretStore.decrypt, SecretStore.encrypt, ALG,
    ctrXor_ctrXor, Except.map]

/-- The stored encrypted record for secret name k of tenant g. -/
def secretAt (dir : SecretDir) (g k : String) : Option EncRecord :=
  (SecretStore.readFile dir g).bind (fun f => lookupKey f.secrets k)

/-- C9: put(g, k, v) leaves the stored encrypted record for every other secret
    name k' of tenant g unchanged and every other tenant's secrets file
    unchanged (only g's record for k and the updatedAt timestamps change). -/
theorem secretStore_put_frame (key iv : Nat) (now : String) (dir : SecretDir)
    (g k k' g2 : String) (v : Bytes) (hk : k' ≠ k) (hg : g2 ≠ g) :
    secretAt (SecretStore.put key iv now dir g k v) g k' = secretAt dir g k'
    ∧ SecretStore.readFile (SecretStore.put key iv now dir g k v) g2 =
        SecretStore.readFile dir g2 := by
  have h0 : ¬(k = k') := fun hh => hk hh.symm
  constructor
  · unfold secretAt SecretStore.put SecretStore.readFile SecretStore.writeFile
    rw [lookupKey_setKey_self]
    cases hcur : lookupKey dir g with
    | none => simp [hcur, lookupKey_setKey_ne _ _ hk, lookupKey, h0]
    | some f => simp [hcur, lookupKey_setKey_ne _ _ hk]
  · unfold SecretStore.put SecretStore.readFile SecretStore.writeFile
    exact lookupKey_setKey_ne _ _ hg

/-- Witness for the frame property at concrete inputs. -/
theorem secretStore_put_frame_witness :
    (("k2" : String) ≠ "k1") ∧
      secretAt (SecretStore.put 5 7 "t0" [] "g1" "k1" [(65 : Byte)]) "g1" "k2" =
        secretAt [] "g1" "k2" :=
  ⟨by decide, (secretStore_put_frame 5 7 "t0" [] "g1" "k1" "k2" "g9" [(65 : Byte)]
      (by decide) (by decide)).1⟩

theorem xor_two_pow_ne (n j : Nat) : n ^^^ 2 ^ j ≠ n := by
  intro h
  have h1 : n ^^^ (n ^^^ 2 ^ j) = n ^^^ n := by rw [h]
  rw [Nat.xor_cancel_left, Nat.xor_self] at h1
  exact absurd h1 (Nat.pos_iff_ne_zero.mp (Nat.two_pow_pos j))

theorem two_pow_mod8_lt (j : Nat) : 2 ^ (j % 8) < 256 := by
  have h : j % 8 < 8 := Nat.mod_lt _ (by norm_num)
  calc 2 ^ (j % 8) ≤ 2 ^ 7 := Nat.pow_le_pow_right (by norm_num) (Nat.le_of_lt_succ h)
  _ < 256 := by norm_num

/-- Flip bit (j % 8) of a byte. -/
def flipByte (b : Byte) (j : Nat) : Byte :=
  ⟨b.val ^^^ 2 ^ (j % 8), xor_lt_256 _ _ b.isLt (two_pow_mod8_lt j)⟩

theorem flipByte_ne (b : Byte) (j : Nat) : flipByte b j ≠ b := by
  intro h
  exact xor_two_pow_ne b.val (j % 8) (congrArg Fin.val h)

/-- A single-bit location inside a stored blob: in the 96-bit nonce, in byte i
    of the ciphertext, or in the authentication tag. -/
inductive FlipLoc where
  | ivBit (j : Nat)
  | ctBit (i j : Nat)
  | tagBit (j : Nat)

/-- Flip the designated bit of a stored record's blob. -/
def applyFlip : FlipLoc → EncRecord → EncRecord
  | .ivBit j, r => { r with iv := r.iv ^^^ 2 ^ j }
  | .ctBit i j, r => { r with ct := r.ct.set i (flipByte (r.ct[i]?.getD 0) j) }
  | .tagBit j, r => { r with tag := r.tag ^^^ 2 ^ j }

/-- The flip location addresses an actual bit of the record's blob. -/
def flipValid : FlipLoc → EncRecord → Bool
  | .ctBit i _, r => i < r.ct.length
  | _, _ => true

theorem set_flip_ne : ∀ (l : Bytes) (i j : Nat), i < l.length →
    l.set i (flipByte (l[i]?.getD 0) j) ≠ l
  | [], i, j, hi => by simp at hi
  | b :: t, 0, j, _ => by
      simp [List.set]
      intro h
      exact absurd h (flipByte_ne b j)
  | b :: t, i + 1, j, hi => by
      simp [List.set]
      intro h
      exact absurd h (set_flip_ne t i j (by simpa using hi))

/-- Flip one bit of the stored record for secret k of tenant g. -/
def tamperAt (dir : SecretDir) (g k : String) (loc : FlipLoc) : SecretDir :=
  match SecretStore.readFile dir g with
  | none => dir
  | some f =>
    match lookupKey f.secrets k with
    | none => dir
    | some r =>
      SecretStore.writeFile dir g { f with secrets := setKey f.secrets k (applyFlip loc r) }

theorem get_tamperAt (key : Nat) (dir : SecretDir) (g k : String) (loc : FlipLoc)
    (f : GuildSecretsFile) (r : EncRecord)
    (h1 : SecretStore.readFile dir g = some f)
    (h2 : lookupKey f.secrets k = some r) :
    SecretStore.get key (tamperAt dir g k loc) g k =
      (SecretStore.decrypt key (applyFlip loc r)).map some := by
  unfold tamperAt
  simp only [h1, h2]
  unfold SecretStore.get SecretStore.readFile SecretStore.writeFile
  simp only [lookupKey_setKey_self]

theorem decrypt_applyFlip (key iv : Nat) (now : String) (v : Bytes) (loc : FlipLoc)
    (hv : flipValid loc (SecretStore.encrypt key iv now v) = true) :
    SecretStore.decrypt key (applyFlip loc (SecretStore.encrypt key iv now v)) =
      .error SecretErr.integrityError := by
  cases loc with
  | ivBit j =>
      have hne : ¬ (authTag key iv (ctrXor key iv 0 v) =
          authTag key (iv ^^^ 2 ^ j) (ctrXor key iv 0 v)) := by
        intro h
        exact xor_two_pow_ne iv j (authTag_inj h).1.symm
      simp [SecretStore.decrypt, applyFlip, SecretStore.encrypt, ALG, hne]
  | tagBit j =>
      have hne : ¬ (authTag key iv (ctrXor key iv 0 v) ^^^ 2 ^ j =
          authTag key iv (ctrXor key iv 0 v)) := xor_two_pow_ne _ j
      simp [SecretStore.decrypt, applyFlip, SecretStore.encrypt, ALG, hne]
  | ctBit i j =>
      have hi : i < (ctrXor key iv 0 v).length := by
        have := of_decide_eq_true (by simpa [flipValid, SecretStore.encrypt] using hv)
        exact this
      have hne : ¬ (authTag key iv (ctrXor key iv 0 v) =
          authTag key iv ((ctrXor key iv 0 v).set i
            (flipByte ((ctrXor key iv 0 v)[i]?.getD 0) j))) := by
        intro h
        exact absurd (authTag_inj h).2.symm (set_flip_ne _ i j hi)
      simp [SecretStore.decrypt, applyFlip, SecretStore.encrypt, ALG, hne]

/-- C5: flipping any bit of the stored ciphertext blob (nonce, ciphertext or
    authentication tag) of a stored secret makes get for that tenant and
    secret name fail with the integrity (authentication) error, never
    returning plaintext (in particular never plaintext differing from the
    original). -/
theorem secretStore_get_tamper_integrityError (key iv : Nat) (now : String)
    (dir : SecretDir) (g k : String) (v : Bytes) (loc : FlipLoc)
    (hv : flipValid loc (SecretStore.encrypt key iv now v) = true) :
    SecretStore.get key
      (tamperAt (SecretStore.put key iv now dir g k v) g k loc) g k =
      .error SecretErr.integrityError := by
  have h1 : SecretStore.readFile (SecretStore.put key iv now dir g k v) g =
      some { guildId := ((SecretStore.readFile dir g).getD
               { guildId := g, secrets := [], updatedAt := now }).guildId,
             secrets := setKey ((SecretStore.readFile dir g).getD
               { guildId := g, secrets := [], updatedAt := now }).secrets k
               (SecretStore.encrypt key iv now v),
             updatedAt := now } := by
    unfold SecretStore.put SecretStore.readFile SecretStore.writeFile
    exact lookupKey_setKey_self _ _ _
  rw [get_tamperAt key _ g k loc _ _ h1 (lookupKey_setKey_self _ _ _),
    decrypt_applyFlip key iv now v loc hv]
  rfl

/-- Witness for tamper detection at concrete inputs (flip bit 0 of the tag). -/
theorem secretStore_get_tamper_witness :
    (flipValid (FlipLoc.tagBit 0) (SecretStore.encrypt 5 7 "t0" [(65 : Byte)]) = true) ∧
      SecretStore.get 5
        (tamperAt (SecretStore.put 5 7 "t0" [] "g1" "k1" [(65 : Byte)]) "g1" "k1"
          (FlipLoc.tagBit 0)) "g1" "k1" = .error SecretErr.integrityError :=
  ⟨by decide, secretStore_get_tamper_integrityError 5 7 "t0" [] "g1" "k1" [(65 : Byte)]
      (FlipLoc.tagBit 0) (by decide)⟩

/-- maskKey of src/shared/secret-store.ts: the empty string stays empty,
    otherwise the fixed placeholder followed by k.slice(-4), the last four
    characters (strings modeled as their character lists). -/
def maskKey (k : List Char) : List Char :=
  if k = [] then [] else "****-****-****-".toList ++ k.drop (k.length - 4)

/-- C8 counterexample: a secret that is itself the placeholder followed by
    four characters is longer than four characters, yet maskKey returns the
    full secret value unchanged, so the claim that maskKey never yields the
    full secret for secrets longer than four characters is false. -/
theorem maskKey_full_secret_counterexample :
    ("****-****-****-abcd".toList).length > 4 ∧
      maskKey ("****-****-****-abcd".toList) = "****-****-****-abcd".toList := by
  constructor
  · decide
  · decide

/-- C8 amended: for every nonempty secret, maskKey yields exactly the fixed
    placeholder followed by the last four characters of the secret, so its
    output depends only on those last four characters; the output coincides
    with the full secret exactly in the degenerate case where the secret is
    itself the placeholder followed by its own last four characters. -/
theorem maskKey_spec (k : List Char) (hk : k ≠ []) :
    maskKey k = "****-****-****-".toList ++ k.drop (k.length - 4)
    ∧ (∀ k2 : List Char, k2 ≠ [] →
        k2.drop (k2.length - 4) = k.drop (k.length - 4) → maskKey k2 = maskKey k) := by
  constructor
  · simp [maskKey, hk]
  · intro k2 h2 hdrop
    simp [maskKey, hk, h2, hdrop]

/-- Witness for the amended maskKey property at a concrete secret. -/
theorem maskKey_spec_witness :
    ("sk-ABCDEFGH".toList ≠ ([] : List Char)) ∧
      maskKey "sk-ABCDEFGH".toList =
        "****-****-****-".toList ++
          "sk-ABCDEFGH".toList.drop ("sk-ABCDEFGH".toList.length - 4) :=
  ⟨by decide, (maskKey_spec "sk-ABCDEFGH".toList (by decide)).1⟩

/-- GuildMapping of src/shared/types.ts (channels, whose contents no claim
    touches, are carried as an opaque channel-id list). -/
structure GuildMapping where
  guild_id : String
  guild_name : String
  installation_id : Nat
  default_repo_owner : String
  default_repo_name : String
  channels : List String
  created_at : String
  updated_at : String
deriving DecidableEq

/-- GitHubInstallation of src/shared/types.ts. -/
structure GitHubInstallation where
  installation_id : Nat
  app_id : Nat
  account_login : String
  account_id : Nat
  account_type : String
  repositories : List String
  permissions : List (String × String)
  created_at : String
  updated_at : String
deriving DecidableEq

/-- Serialized file contents; the serializers (yaml.dump, JSON.stringify) are
    modeled as the injective constructors of this type. -/
inductive FileContent where
  | jsonSecrets (f : GuildSecretsFile)
  | yamlMapping (m : GuildMapping)
  | yamlInstallation (i : GitHubInstallation)
deriving DecidableEq

/-- A durable filesystem operation issued by a write path. -/
inductive FsOp where
  | write (path : String) (c : FileContent)
  | rename (src dst : String)
deriving DecidableEq

def FsOp.isRename : FsOp → Bool
  | .rename _ _ => true
  | _ => false

/-- The operation trace of SecretStore.writeFile: write the serialized file to
    (file).tmp, then rename (file).tmp over the target (fs.writeFile of the
    temp path followed by fs.rename). -/
def SecretStore.writeFileOps (guildId : String) (data : GuildSecretsFile) : List FsOp :=
  let file := "data/guilds/" ++ guildId ++ ".json"
  [.write (file ++ ".tmp") (.jsonSecrets data), .rename (file ++ ".tmp") file]

/-- The operation trace of FileUtils.writeYamlFile: a single direct
    fs.writeFile of the serialized data to the target path. -/
def FileUtils.writeYamlFileOpsMapping (filePath : String) (m : GuildMapping) : List FsOp :=
  [.write filePath (.yamlMapping m)]

/-- The operation trace of FileUtils.writeYamlFile for an installation. -/
def FileUtils.writeYamlFileOpsInstallation (filePath : String) (i : GitHubInstallation) :
    List FsOp :=
  [.write filePath (.yamlInstallation i)]

/-- FileUtils.saveGuildMapping: writeYamlFile to
    data/guild_mappings/(guild_id).yml. -/
def FileUtils.saveGuildMappingOps (m : GuildMapping) : List FsOp :=
  FileUtils.writeYamlFileOpsMapping ("data/guild_mappings/" ++ m.guild_id ++ ".yml") m

/-- FileUtils.saveInstallation: writeYamlFile to
    data/installations/(installation_id).yml. -/
def FileUtils.saveInstallationOps (i : GitHubInstallation) : List FsOp :=
  FileUtils.writeYamlFileOpsInstallation
    ("data/installations/" ++ toString i.installation_id ++ ".yml") i

/-- A trace is a temp-file-then-atomic-rename replacement of the target. -/
def atomicReplacePattern (target : String) (ops : List FsOp) : Prop :=
  ∃ c, ops = [.write (target ++ ".tmp") c, .rename (target ++ ".tmp") target]

/-- C4 counterexample: the durable write performed by FileUtils.saveGuildMapping
    for a concrete mapping contains no rename at all, so it is not a
    temp-file-then-rename write to its target path; the claim that every
    mapping-store write follows the atomic pattern is false. -/
theorem saveGuildMapping_not_atomic_counterexample :
    (FileUtils.saveGuildMappingOps
        { guild_id := "g1", guild_name := "G", installation_id := 123,
          default_repo_owner := "acme", default_repo_name := "docs",
          channels := [], created_at := "t0", updated_at := "t0" }).countP
        FsOp.isRename = 0
    ∧ ¬ atomicReplacePattern "data/guild_mappings/g1.yml"
        (FileUtils.saveGuildMappingOps
          { guild_id := "g1", guild_name := "G", installation_id := 123,
            default_repo_owner := "acme", default_repo_name := "docs",
            channels := [], created_at := "t0", updated_at := "t0" }) := by
  constructor
  · rfl
  · rintro ⟨c, hc⟩
    have hlen := congrArg List.length hc
    simp [FileUtils.saveGuildMappingOps, FileUtils.writeYamlFileOpsMapping] at hlen

/-- C4 amended: every write of a tenant secrets file by SecretStore.writeFile
    follows the temp-file-then-atomic-rename pattern, but the mapping-store
    writes (FileUtils.saveGuildMapping, FileUtils.saveInstallation, via
    FileUtils.writeYamlFile) are single direct in-place writes of the full
    serialized record with no rename step. -/
theorem write_atomicity_spec :
    (∀ (g : String) (data : GuildSecretsFile),
      atomicReplacePattern ("data/guilds/" ++ g ++ ".json")
        (SecretStore.writeFileOps g data))
    ∧ (∀ m : GuildMapping, FileUtils.saveGuildMappingOps m =
        [.write ("data/guild_mappings/" ++ m.guild_id ++ ".yml") (.yamlMapping m)])
    ∧ (∀ i : GitHubInstallation, FileUtils.saveInstallationOps i =
        [.write ("data/installations/" ++ toString i.installation_id ++ ".yml")
          (.yamlInstallation i)]) := by
  refine ⟨fun g data => ⟨.jsonSecrets data, rfl⟩, fun m => rfl, fun i => rfl⟩

/-- The AppError taxonomy of src/shared/error-handler.ts, plus the
    non-AppError exceptions that can escape the webhook path: a plain Error
    (missing installation data) and the RangeError thrown by
    crypto.timingSafeEqual on buffers of unequal length, both mapped to 500
    by ErrorHandler.getStatusCode. -/
inductive ThrownErr where
  | validationError
  | notFoundError
  | unauthorizedError
  | externalServiceError
  | genericError
deriving DecidableEq

/-- ErrorHandler.getStatusCode: the statusCode field of an AppError
    (400/404/401/502), and 500 for anything that is not an AppError. -/
def ErrorHandler.getStatusCode : ThrownErr → Nat
  | .validationError => 400
  | .notFoundError => 404
  | .unauthorizedError => 401
  | .externalServiceError => 502
  | .genericError => 500

/-- A hexadecimal digit character. -/
def hexDigit (d : Nat) : Char :=
  if d < 10 then Char.ofNat (48 + d) else Char.ofNat (87 + d)

/-- Deterministic Nat-valued digest of (secret, payload): the model of
    HMAC-SHA256.  The claims rely only on the digest being a deterministic
    function of the secret and the payload. -/
def hmacDigest (secret payload : String) : Nat :=
  (secret.data.foldl (fun a c => a * 131 + c.toNat + 7) 99991) * 2 ^ 128 +
    payload.data.foldl (fun a c => a * 131 + c.toNat + 7) 77

/-- 64 hex digits of n (most significant first). -/
def hex64 (n : Nat) : List Char :=
  (List.range 64).map (fun i => hexDigit ((n / 16 ^ (63 - i)) % 16))

/-- crypto.createHmac of sha256 followed by digest of hex: always a 64
    hex-character string. -/
def hmacSha256Hex (secret payload : String) : String :=
  ⟨hex64 (hmacDigest secret payload)⟩

theorem hmacSha256Hex_length (secret payload : String) :
    (hmacSha256Hex secret payload).length = 64 := by
  simp [hmacSha256Hex, String.length, hex64]

/-- The expected signature computed by verifyGitHubSignature. -/
def expectedSig (secret payload : String) : String :=
  "sha256=" ++ hmacSha256Hex secret payload

theorem expectedSig_length (secret payload : String) :
    (expectedSig secret payload).length = 71 := by
  simp [expectedSig, String.length_append, hmacSha256Hex_length]
  decide

/-- crypto.timingSafeEqual: throws a RangeError when the two buffers have
    different byte lengths, otherwise compares them in constant time. -/
def timingSafeEqual (a b : String) : Except Unit Bool :=
  if a.length = b.length then .ok (a = b) else .error ()

/-- verifyGitHubSignature of src/api/routes/webhooks.ts.  secret is
    process.env.GITHUB_WEBHOOK_SECRET (none when unset), signature the
    x-hub-signature-256 header (none when absent); the JS falsiness checks
    (!signature, !secret) also catch empty strings.  The error case is the
    RangeError escaping from timingSafeEqual. -/
def verifyGitHubSignature (secret : Option String) (payload : String)
    (signature : Option String) : Except Unit Bool :=
  match signature with
  | none => .ok false
  | some s =>
    if s = "" then .ok false
    else
      match secret with
      | none => .ok false
      | some sec =>
        if sec = "" then .ok false
        else timingSafeEqual s (expectedSig sec payload)

/-- The installation block of a webhook payload, as read by the handlers. -/
structure InstallationBlock where
  id : Nat
  app_id : Nat
  account_login : String
  account_id : Nat
  account_type : String
  permissions : List (String × String)
  created_at : String
  updated_at : String
deriving DecidableEq

/-- WebhookPayload of src/api/routes/webhooks.ts: action, optional
    installation block, optional repositories list. -/
structure WebhookPayload where
  action : String
  installation : Option InstallationBlock
  repositories : List String
deriving DecidableEq

/-- The mutable state the webhook layer can touch: the installation-client
    cache of GitHubService (installation id to the opaque identity of the
    cached Octokit instance) and the two persisted stores (one YAML file per
    installation id, one per guild id). -/
structure ServerState where
  clients : List (Nat × Nat)
  installations : List GitHubInstallation
  mappings : List GuildMapping
deriving DecidableEq

/-- FileUtils.getInstallation: read data/installations/(id).yml. -/
def FileUtils.getInstallation (l : List GitHubInstallation) (id : Nat) :
    Option GitHubInstallation :=
  l.find? (fun i => i.installation_id = id)

/-- FileUtils.saveInstallation: create or overwrite
    data/installations/(id).yml with the record. -/
def FileUtils.saveInstallation (l : List GitHubInstallation)
    (inst : GitHubInstallation) : List GitHubInstallation :=
  inst :: l.filter (fun i => i.installation_id ≠ inst.installation_id)

/-- FileUtils.deleteInstallation: unlink data/installations/(id).yml,
    tolerating ENOENT (deleting an absent file is a no-op). -/
def FileUtils.deleteInstallation (l : List GitHubInstallation) (id : Nat) :
    List GitHubInstallation :=
  l.filter (fun i => i.installation_id ≠ id)

/-- FileUtils.deleteGuildMapping: unlink data/guild_mappings/(g).yml,
    tolerating ENOENT. -/
def FileUtils.deleteGuildMapping (l : List GuildMapping) (g : String) :
    List GuildMapping :=
  l.filter (fun m => m.guild_id ≠ g)

/-- FileUtils.findGuildsByInstallation: scan every mapping file in the
    directory and keep those whose installation_id matches. -/
def FileUtils.findGuildsByInstallation (l : List GuildMapping) (id : Nat) :
    List GuildMapping :=
  l.filter (fun m => m.installation_id = id)

/-- GitHubService.handleInstallationCreated: build the installation record
    from the payload's installation block and repositories and save it. -/
def GitHubService.handleInstallationCreated (instId : Nat) (p : WebhookPayload)
    (inst : InstallationBlock) (s : ServerState) : ServerState :=
  let inst0 : GitHubInstallation :=
    { installation_id := instId, app_id := inst.app_id,
      account_login := inst.account_login, account_id := inst.account_id,
      account_type := inst.account_type, repositories := p.repositories,
      permissions := inst.permissions,
      created_at := inst.created_at, updated_at := inst.updated_at }
  { s with installations := FileUtils.saveInstallation s.installations inst0 }

/-- GitHubService.handleInstallationDeleted: evict the cached client, delete
    the installation file, then delete every guild mapping found by
    findGuildsByInstallation, one file at a time. -/
def GitHubService.handleInstallationDeleted (instId : Nat) (s : ServerState) :
    ServerState :=
  { clients := s.clients.filter (fun c => c.1 ≠ instId),
    installations := FileUtils.deleteInstallation s.installations instId,
    mappings := (FileUtils.findGuildsByInstallation s.mappings instId).foldl
      (fun ms gm => FileUtils.deleteGuildMapping ms gm.guild_id) s.mappings }

/-- handleInstallationEvent of src/api/routes/webhooks.ts: a missing
    installation block throws a plain Error; created saves the snapshot,
    deleted cascades, suspend/unsuspend and unknown actions only log. -/
def handleInstallationEvent (p : WebhookPayload) (s : ServerState) :
    Except ThrownErr ServerState :=
  match p.installation with
  | none => .error .genericError
  | some inst =>
    match p.action with
    | "created" => .ok (GitHubService.handleInstallationCreated inst.id p inst s)
    | "deleted" => .ok (GitHubService.handleInstallationDeleted inst.id s)
    | "suspend" => .ok s
    | "unsuspend" => .ok s
    | _ => .ok s

/-- handleInstallationRepositoriesEvent: added and removed re-save the
    installation snapshot; unknown actions only log. -/
def handleInstallationRepositoriesEvent (p : WebhookPayload) (s : ServerState) :
    Except ThrownErr ServerState :=
  match p.installation with
  | none => .error .genericError
  | some inst =>
    match p.action with
    | "added" => .ok (GitHubService.handleInstallationCreated inst.id p inst s)
    | "removed" => .ok (GitHubService.handleInstallationCreated inst.id p inst s)
    | _ => .ok s

/-- handleWebhookEvent: dispatch on the x-github-event header; ping and
    unknown events cause no state change and no error. -/
def handleWebhookEvent (event : String) (p : WebhookPayload) (s : ServerState) :
    Except ThrownErr ServerState :=
  match event with
  | "installation" => handleInstallationEvent p s
  | "installation_repositories" => handleInstallationRepositoriesEvent p s
  | "ping" => .ok s
  | _ => .ok s

/-- A webhook POST request: the x-hub-signature-256 header, the
    x-github-event header, the serialized body (JSON.stringify(request.body),
    over which the HMAC is computed) and the parsed body. -/
structure WebhookReq where
  signature : Option String
  event : String
  bodyText : String
  payload : WebhookPayload
deriving DecidableEq

/-- The POST /github route handler: verify the signature (throwing
    UnauthorizedError when verification returns false), dispatch the event,
    answer 200 on success; every thrown error is caught and answered with
    ErrorHandler.getStatusCode, leaving state untouched. -/
def webhookPost (secret : Option String) (req : WebhookReq) (st : ServerState) :
    Nat × ServerState :=
  match verifyGitHubSignature secret req.bodyText req.signature with
  | .error _ => (ErrorHandler.getStatusCode .genericError, st)
  | .ok false => (ErrorHandler.getStatusCode .unauthorizedError, st)
  | .ok true =>
    match handleWebhookEvent req.event req.payload st with
    | .ok st2 => (200, st2)
    | .error e => (ErrorHandler.getStatusCode e, st)

/-- GitHubService.getInstallationClient: return the cached client when
    present; otherwise build a client, test it with a network call (modeled
    by net: the opaque Octokit identity on success, the HTTP status on
    failure), cache it and return it; a 404-status failure raises
    NotFoundError, any other failure UnauthorizedError.  now is the wall
    clock, which the source never consults (the cache records no expiry).
    The Bool reports whether a network exchange was attempted. -/
def GitHubService.getInstallationClient (net : Except Nat Nat) (now : Nat)
    (s : ServerState) (instId : Nat) :
    Except ThrownErr Nat × ServerState × Bool :=
  match s.clients.find? (fun c => c.1 = instId) with
  | some c => (.ok c.2, s, false)
  | none =>
    match net with
    | .ok client =>
      (.ok client, { s with clients := (instId, client) :: s.clients }, true)
    | .error status =>
      if status = 404 then (.error .notFoundError, s, true)
      else (.error .unauthorizedError, s, true)

/-- The HTTP response of the installation access-token exchange, as read by
    ConfigService.getInstallationToken: response.ok, response.status and the
    token field of the JSON body. -/
structure TokenResp where
  ok : Bool
  status : Nat
  token : String
deriving DecidableEq

/-- ConfigService.getInstallationToken: a non-ok response with status 404
    raises ValidationError (rethrown as-is by the surrounding catch); every
    other non-ok response raises ExternalServiceError. -/
def ConfigService.getInstallationToken (resp : TokenResp) : Except ThrownErr String :=
  if resp.ok then .ok resp.token
  else if resp.status = 404 then .error .validationError
  else .error .externalServiceError

theorem filter_self_idem {α : Type} (p : α → Bool) (l : List α) :
    (l.filter p).filter p = l.filter p := by
  induction l with
  | nil => rfl
  | cons a t ih =>
      by_cases h : p a
      · simp [List.filter_cons, h, ih]
      · simp [List.filter_cons, h, ih]

theorem mem_foldl_deleteGuildMapping :
    ∀ (gs ms : List GuildMapping) (m : GuildMapping),
      m ∈ gs.foldl (fun acc g => FileUtils.deleteGuildMapping acc g.guild_id) ms ↔
        (m ∈ ms ∧ ∀ g ∈ gs, m.guild_id ≠ g.guild_id)
  | [], ms, m => by simp
  | g :: t, ms, m => by
      simp only [List.foldl_cons]
      rw [mem_foldl_deleteGuildMapping t _ m]
      simp [FileUtils.deleteGuildMapping, List.mem_filter]
      tauto

/-- C3: after handleInstallationDeleted(I) the installation record for I is
    absent and zero persisted guild mappings with installation_id = I remain;
    invoking the handler a second time for the same I completes without error
    and leaves the state unchanged (each delete is independently idempotent). -/
theorem handleInstallationDeleted_cascade (instId : Nat) (s : ServerState) :
    FileUtils.getInstallation
        (GitHubService.handleInstallationDeleted instId s).installations instId = none
    ∧ FileUtils.findGuildsByInstallation
        (GitHubService.handleInstallationDeleted instId s).mappings instId = []
    ∧ GitHubService.handleInstallationDeleted instId
        (GitHubService.handleInstallationDeleted instId s) =
      GitHubService.handleInstallationDeleted instId s := by
  have hmap : FileUtils.findGuildsByInstallation
      (GitHubService.handleInstallationDeleted instId s).mappings instId = [] := by
    unfold FileUtils.findGuildsByInstallation
    rw [List.filter_eq_nil_iff]
    intro m hm
    rw [show (GitHubService.handleInstallationDeleted instId s).mappings =
        (FileUtils.findGuildsByInstallation s.mappings instId).foldl
          (fun ms gm => FileUtils.deleteGuildMapping ms gm.guild_id) s.mappings
      from rfl] at hm
    rw [mem_foldl_deleteGuildMapping] at hm
    obtain ⟨hms, hall⟩ := hm
    simp only [decide_eq_true_eq]
    intro hinst
    have hmem : m ∈ FileUtils.findGuildsByInstallation s.mappings instId := by
      unfold FileUtils.findGuildsByInstallation
      rw [List.mem_filter]
      exact ⟨hms, by simp [hinst]⟩
    exact hall m hmem rfl
  have hins : FileUtils.getInstallation
      (GitHubService.handleInstallationDeleted instId s).installations instId = none := by
    unfold FileUtils.getInstallation
    rw [List.find?_eq_none]
    intro i hi
    rw [show (GitHubService.handleInstallationDeleted instId s).installations =
        FileUtils.deleteInstallation s.installations instId from rfl] at hi
    unfold FileUtils.deleteInstallation at hi
    rw [List.mem_filter] at hi
    simp only [decide_eq_true_eq] at hi ⊢
    exact hi.2
  refine ⟨hins, hmap, ?_⟩
  have hs1 : GitHubService.handleInstallationDeleted instId
      (GitHubService.handleInstallationDeleted instId s) =
    { clients := (GitHubService.handleInstallationDeleted instId s).clients.filter
        (fun c => c.1 ≠ instId),
      installations := FileUtils.deleteInstallation
        (GitHubService.handleInstallationDeleted instId s).installations instId,
      mappings := (FileUtils.findGuildsByInstallation
        (GitHubService.handleInstallationDeleted instId s).mappings instId).foldl
        (fun ms gm => FileUtils.deleteGuildMapping ms gm.guild_id)
        (GitHubService.handleInstallationDeleted instId s).mappings } := rfl
  have hcl : (GitHubService.handleInstallationDeleted instId s).clients.filter
      (fun c => c.1 ≠ instId) =
      (GitHubService.handleInstallationDeleted instId s).clients :=
    filter_self_idem _ _
  have hin2 : FileUtils.deleteInstallation
      (GitHubService.handleInstallationDeleted instId s).installations instId =
      (GitHubService.handleInstallationDeleted instId s).installations :=
    filter_self_idem _ _
  rw [hs1, hmap, hcl, hin2]
  rfl

theorem verifyGitHubSignature_no_secret (payload : String) (signature : Option String) :
    verifyGitHubSignature none payload signature = .ok false := by
  cases signature with
  | none => rfl
  | some s =>
      by_cases hs : s = ""
      · simp [verifyGitHubSignature, hs]
      · simp [verifyGitHubSignature, hs]

/-- C10: when GITHUB_WEBHOOK_SECRET is not configured, verifyGitHubSignature
    returns false for every payload regardless of the supplied signature, so
    every webhook delivery is rejected with UnauthorizedError (HTTP 401) and
    no installation or mapping state is mutated (fail-closed). -/
theorem webhook_no_secret_fail_closed (payload : String) (signature : Option String)
    (req : WebhookReq) (st : ServerState) :
    verifyGitHubSignature none payload signature = .ok false
    ∧ webhookPost none req st = (401, st) := by
  refine ⟨verifyGitHubSignature_no_secret payload signature, ?_⟩
  simp [webhookPost, verifyGitHubSignature_no_secret, ErrorHandler.getStatusCode]

theorem verify_some_nonempty (sec : String) (hsec : ¬ sec = "") (payload s : String)
    (hs : ¬ s = "") :
    verifyGitHubSignature (some sec) payload (some s) =
      timingSafeEqual s (expectedSig sec payload) := by
  simp [verifyGitHubSignature, hs, hsec]

/-- C2 counterexample: with webhook secret s and body x, the supplied header
    sha256=00 differs from the expected signature, yet the handler answers
    500 (the RangeError thrown by crypto.timingSafeEqual on buffers of
    unequal byte length escapes verifyGitHubSignature and is not an
    AppError), not 401, refuting the claim that every absent or mismatched
    signature is rejected with UnauthorizedError (HTTP 401). -/
theorem webhook_bad_signature_500_counterexample :
    "sha256=00" ≠ expectedSig "s" "x"
    ∧ webhookPost (some "s")
        { signature := some "sha256=00", event := "ping", bodyText := "x",
          payload := { action := "", installation := none, repositories := [] } }
        { clients := [], installations := [], mappings := [] } =
      (500, { clients := [], installations := [], mappings := [] })
    ∧ (500 : Nat) ≠ 401 := by
  refine ⟨?_, ?_, by decide⟩
  · intro h
    have hl := congrArg String.length h
    rw [expectedSig_length] at hl
    exact absurd hl (by decide)
  · have hlen : ¬ ("sha256=00".length = (expectedSig "s" "x").length) := by
      rw [expectedSig_length]
      decide
    simp [webhookPost, verify_some_nonempty "s" (by decide) "x" "sha256=00" (by decide),
      timingSafeEqual, hlen, ErrorHandler.getStatusCode]

/-- C2 amended: with a configured (nonempty) webhook secret, every POST
    request whose x-hub-signature-256 header is absent or differs from
    sha256= followed by the hex HMAC of the serialized body is rejected with
    a non-200 status before any payload field is interpreted, and no
    installation or mapping state is mutated; the rejection is
    UnauthorizedError (401) when the header is absent, empty, or has the
    length of the expected signature (71), while a nonempty header of any
    other length makes crypto.timingSafeEqual throw a RangeError, surfaced
    as 500 rather than 401. -/
theorem webhook_reject_bad_signature (sec : String) (hsec : sec ≠ "")
    (req : WebhookReq) (st : ServerState)
    (hbad : ∀ s, req.signature = some s → s ≠ expectedSig sec req.bodyText) :
    ((webhookPost (some sec) req st).2 = st
      ∧ (webhookPost (some sec) req st).1 ≠ 200)
    ∧ (req.signature = none → (webhookPost (some sec) req st).1 = 401)
    ∧ (∀ s, req.signature = some s →
        ((s = "" ∨ s.length = 71) → (webhookPost (some sec) req st).1 = 401)
        ∧ ((s ≠ "" ∧ s.length ≠ 71) → (webhookPost (some sec) req st).1 = 500)) := by
  cases hsig : req.signature with
  | none =>
      refine ⟨⟨?_, ?_⟩, ⟨(fun _ => ?_), fun s2 hs2 => nomatch hs2⟩⟩
      all_goals simp [webhookPost, verifyGitHubSignature, hsig,
        ErrorHandler.getStatusCode]
  | some s =>
      by_cases hs : s = ""
      · have hv : verifyGitHubSignature (some sec) req.bodyText (some s) =
            .ok false := by rw [hs]; simp [verifyGitHubSignature]
        refine ⟨⟨?_, ?_⟩, ⟨(fun hn => nomatch hn), fun s2 hs2 => ?_⟩⟩
        · simp [webhookPost, hsig, hv]
        · simp [webhookPost, hsig, hv, ErrorHandler.getStatusCode]
        · injection hs2 with hs2
          subst hs2
          refine ⟨fun _ => ?_, fun hcon => absurd hs hcon.1⟩
          simp [webhookPost, hsig, hv, ErrorHandler.getStatusCode]
      · have hv : verifyGitHubSignature (some sec) req.bodyText (some s) =
            timingSafeEqual s (expectedSig sec req.bodyText) :=
          verify_some_nonempty sec hsec req.bodyText s hs
        have hne : s ≠ expectedSig sec req.bodyText := hbad s hsig
        by_cases hlen : s.length = (expectedSig sec req.bodyText).length
        · have hts : timingSafeEqual s (expectedSig sec req.bodyText) = .ok false := by
            simp [timingSafeEqual, hlen, hne]
          refine ⟨⟨?_, ?_⟩, ⟨(fun hn => nomatch hn), fun s2 hs2 => ?_⟩⟩
          · simp [webhookPost, hsig, hv, hts]
          · simp [webhookPost, hsig, hv, hts, ErrorHandler.getStatusCode]
          · injection hs2 with hs2
            subst hs2
            have h71 : s.length = 71 := by rw [hlen, expectedSig_length]
            refine ⟨fun _ => ?_, fun hcon => absurd h71 hcon.2⟩
            simp [webhookPost, hsig, hv, hts, ErrorHandler.getStatusCode]
        · have hts : timingSafeEqual s (expectedSig sec req.bodyText) = .error () := by
            simp [timingSafeEqual, hlen]
          refine ⟨⟨?_, ?_⟩, ⟨(fun hn => nomatch hn), fun s2 hs2 => ?_⟩⟩
          · simp [webhookPost, hsig, hv, hts]
          · simp [webhookPost, hsig, hv, hts, ErrorHandler.getStatusCode]
          · injection hs2 with hs2
            subst hs2
            have h71 : ¬ (s.length = 71) := by
              rw [← expectedSig_length sec req.bodyText]
              exact hlen
            refine ⟨fun hor => ?_, fun _ => ?_⟩
            · rcases hor with h | h
              · exact absurd h hs
              · exact absurd h h71
            · simp [webhookPost, hsig, hv, hts, ErrorHandler.getStatusCode]

/-- Witness for the amended signature-rejection property: an absent header
    with a configured secret is answered 401 with the state untouched. -/
theorem webhook_reject_bad_signature_witness :
    (("s" : String) ≠ "") ∧
      (webhookPost (some "s")
        { signature := none, event := "ping", bodyText := "x",
          payload := { action := "", installation := none, repositories := [] } }
        { clients := [], installations := [], mappings := [] }).1 = 401 :=
  ⟨by decide,
    (webhook_reject_bad_signature "s" (by decide)
      { signature := none, event := "ping", bodyText := "x",
        payload := { action := "", installation := none, repositories := [] } }
      { clients := [], installations := [], mappings := [] }
      (fun s hs => nomatch hs)).2.1 rfl⟩

/-- C6: the first half of the claim holds in the code: a request immediately
    after a successful issuance for the same installation returns the cached
    client with no network exchange.  The second half does not: the cache
    records no expiry and the wall clock is never consulted, so a later
    request (for EVERY later time now2, in particular past the token validity
    window) still returns the cached client with no re-issuance, serving a
    stale token. -/
theorem getInstallationClient_no_expiry (net2 : Except Nat Nat)
    (now now2 : Nat) (s : ServerState) (instId client : Nat)
    (hmiss : s.clients.find? (fun c => c.1 = instId) = none) :
    (GitHubService.getInstallationClient (.ok client) now s instId =
      (.ok client, { s with clients := (instId, client) :: s.clients }, true))
    ∧ (GitHubService.getInstallationClient net2 now2
        { s with clients := (instId, client) :: s.clients } instId =
      (.ok client, { s with clients := (instId, client) :: s.clients }, false)) := by
  constructor
  · simp [GitHubService.getInstallationClient, hmiss]
  · simp [GitHubService.getInstallationClient, List.find?]

/-- Witness: after caching installation 1 at time 0, the call at time 3601
    (past the one-hour validity window) still returns the cached client with
    no network exchange, even though the network would answer 500. -/
theorem getInstallationClient_no_expiry_witness :
    (([] : List (Nat × Nat)).find? (fun c => c.1 = 1) = none) ∧
      GitHubService.getInstallationClient (.error 500) 3601
        { clients := [(1, 42)], installations := [], mappings := [] } 1 =
      (.ok 42, { clients := [(1, 42)], installations := [], mappings := [] }, false) :=
  ⟨by decide,
    (getInstallationClient_no_expiry (.error 500) 0 3601
      { clients := [], installations := [], mappings := [] } 1 42 (by decide)).2⟩

/-- C7 counterexample: on a 404-class response the token exchange in
    ConfigService.getInstallationToken fails with ValidationError, not
    NotFoundError, so the claim is false as stated. -/
theorem getInstallationToken_404_counterexample :
    ConfigService.getInstallationToken { ok := false, status := 404, token := "" } =
      .error ThrownErr.validationError
    ∧ ThrownErr.validationError ≠ ThrownErr.notFoundError := by
  exact ⟨rfl, by decide⟩

/-- C7 amended: in ConfigService.getInstallationToken a 404 response fails
    with ValidationError (not retried, rethrown as-is) and any other non-ok
    response fails with ExternalServiceError; in
    GitHubService.getInstallationClient (on a cache miss) a 404-status
    failure raises NotFoundError and any other failure UnauthorizedError. -/
theorem token_issuance_error_taxonomy (resp : TokenResp) (hok : resp.ok = false)
    (now : Nat) (s : ServerState) (instId status : Nat)
    (hmiss : s.clients.find? (fun c => c.1 = instId) = none) :
    (resp.status = 404 →
      ConfigService.getInstallationToken resp = .error .validationError)
    ∧ (resp.status ≠ 404 →
      ConfigService.getInstallationToken resp = .error .externalServiceError)
    ∧ ((GitHubService.getInstallationClient (.error 404) now s instId).1 =
        .error .notFoundError)
    ∧ (status ≠ 404 →
      (GitHubService.getInstallationClient (.error status) now s instId).1 =
        .error .unauthorizedError) := by
  refine ⟨fun h404 => ?_, fun hother => ?_, ?_, fun hst => ?_⟩
  · simp [ConfigService.getInstallationToken, hok, h404]
  · simp [ConfigService.getInstallationToken, hok, hother]
  · simp [GitHubService.getInstallationClient, hmiss]
  · simp [GitHubService.getInstallationClient, hmiss, hst]

/-- Witness for the amended issuance error taxonomy at concrete inputs. -/
theorem token_issuance_error_taxonomy_witness :
    ({ ok := false, status := 404, token := "" } : TokenResp).ok = false ∧
      (([] : List (Nat × Nat)).find? (fun c => c.1 = 1) = none) ∧
      ConfigService.getInstallationToken { ok := false, status := 404, token := "" } =
        .error .validationError :=
  ⟨by decide, by decide,
    (token_issuance_error_taxonomy { ok := false, status := 404, token := "" } rfl 0
      { clients := [], installations := [], mappings := [] } 1 500 (by decide)).1 rfl⟩
